import Mathlib

/-!
Shallow embedding of the LXUSD wallet server-side core:
the Next.js API route handlers in `src/app/api/token-transfer/route.ts`
(token-transfer POST and tx-params POST), `src/app/api/balances/route.ts`
(balances GET) and the transaction route (broadcast POST and nonce GET),
together with the parts of the `ethers` v6 library those handlers call
(`isAddress`/`getAddress`, `parseUnits`, ABI call-data encoding).

Handlers are modelled as pure functions: the JSON-RPC node is passed in as
explicit `Except`/record arguments (one per query), and each handler returns
an inductive value that mirrors exactly the JSON bodies the source builds
with `NextResponse.json`.  JavaScript `BigInt` arithmetic is embedded as
`Nat`/`Int` (it is arbitrary-precision, so no wraparound modelling is
needed); `Number`-typed values are embedded as exact integers/rationals,
which agrees with JavaScript doubles on the magnitudes these handlers
handle (below 2^53).
-/

set_option autoImplicit false
set_option maxRecDepth 100000

namespace LXUSD

/-! ### JavaScript string primitives -/

/-- Whitespace recognised by JavaScript `String.prototype.trim` (the ASCII
part, which is all the handlers can receive in practice). -/
def jsWhitespace (c : Char) : Bool :=
  c == ' ' || c == '\t' || c == '\n' || c == '\r' || c == '\x0b' || c == '\x0c'

/-- JavaScript `s.trim()` on the character list. -/
def jsTrimList (l : List Char) : List Char :=
  ((l.dropWhile jsWhitespace).reverse.dropWhile jsWhitespace).reverse

/-- JavaScript `s.trim()`. -/
def jsTrim (s : String) : String :=
  String.mk (jsTrimList s.data)

/-- Boolean list-prefix test (JavaScript `String.prototype.startsWith`). -/
def listIsPrefix : List Char → List Char → Bool
  | [], _ => true
  | _ :: _, [] => false
  | p :: ps, c :: cs => p == c && listIsPrefix ps cs

/-- JavaScript `s.startsWith(p)`. -/
def jsStartsWith (s p : String) : Bool :=
  listIsPrefix p.data s.data

/-- Truthiness of a JavaScript string (`!s` is true exactly on `""`). -/
def jsTruthy (s : String) : Bool := s ≠ ""

/-- Truthiness of an optional JavaScript string field (`undefined`/`null`
and `""` are falsy). -/
def jsTruthyOpt : Option String → Bool
  | none => false
  | some s => jsTruthy s

/-! ### Decimal digits -/

/-- Numeric value of a list of decimal digit characters (most significant
first), as a fold exactly like repeated `BigInt` accumulation. -/
def digitsVal (l : List Char) : Nat :=
  l.foldl (fun a c => 10 * a + (c.toNat - 48)) 0

/-- Numeric value of a hexadecimal digit character. -/
def hexDigitVal (c : Char) : Nat :=
  if c.isDigit then c.toNat - 48
  else if 'a' ≤ c && c ≤ 'f' then c.toNat - 87
  else if 'A' ≤ c && c ≤ 'F' then c.toNat - 55
  else 0

/-- Hexadecimal digit recogniser, the character class `[0-9a-fA-F]`. -/
def isHexDigit (c : Char) : Bool :=
  c.isDigit || ('a' ≤ c && c ≤ 'f') || ('A' ≤ c && c ≤ 'F')

/-- Numeric value of a list of hexadecimal digit characters. -/
def hexVal (l : List Char) : Nat :=
  l.foldl (fun a c => 16 * a + hexDigitVal c) 0

/-! ### JavaScript `Number(string)` semantics

The token-transfer handler validates the amount with
`Number.isNaN(Number(amountStr)) || Number(amountStr) <= 0`.  We embed the
ECMAScript `StringNumericLiteral` grammar with exact rational values
(doubles round a rational to 53 bits of precision; rounding is monotone and
fixes `0`, so the sign tests the handler performs agree with the exact
values). -/

/-- Result of JavaScript `Number(string)`: NaN, a signed infinity, or a
finite value.  A finite value is kept in exact scientific form
`mantissa × 10 ^ exponent` (both integers) so that the sign tests the
handlers perform stay in integer arithmetic. -/
inductive JsNum where
  | nan
  | inf (neg : Bool)
  | fin (m : ℤ) (e : ℤ)
  deriving DecidableEq

/-- Exact rational denotation of a finite `JsNum`. -/
def jsNumVal : JsNum → Option ℚ
  | JsNum.fin m e => some ((m : ℚ) * 10 ^ e)
  | _ => none

/-- JavaScript `Number.isNaN` composed with the sign test `<= 0`, the exact
rejection condition of the amount validator.  For a finite value
`m × 10 ^ e` the test `value ≤ 0` is exactly `m ≤ 0` (the power of ten is
positive); `jsNumBad_fin_iff` below records this. -/
def jsNumBad : JsNum → Bool
  | JsNum.nan => true
  | JsNum.inf neg => neg
  | JsNum.fin m _ => m ≤ 0

/-- Exponent part of a decimal literal: empty means exponent `0`;
otherwise `e`/`E`, an optional sign and a nonempty digit string. -/
def parseExpPart : List Char → Option ℤ
  | [] => some 0
  | e :: rest =>
    if e == 'e' || e == 'E' then
      match rest with
      | '+' :: ds => if ds ≠ [] && ds.all Char.isDigit then some (digitsVal ds) else none
      | '-' :: ds => if ds ≠ [] && ds.all Char.isDigit then some (-(digitsVal ds : ℤ)) else none
      | ds => if ds ≠ [] && ds.all Char.isDigit then some (digitsVal ds) else none
    else none

/-- Body of an unsigned decimal literal `digits [. digits] [exp]` or
`. digits [exp]`, in exact scientific form: the returned pair `(m, e)`
denotes `m × 10 ^ e`. -/
def parseDecimalBody (l : List Char) : Option (ℕ × ℤ) :=
  let intPart := l.takeWhile Char.isDigit
  let rest := l.dropWhile Char.isDigit
  match rest with
  | [] => if intPart = [] then none else some (digitsVal intPart, 0)
  | '.' :: r2 =>
    let fracPart := r2.takeWhile Char.isDigit
    let rest2 := r2.dropWhile Char.isDigit
    if intPart = [] && fracPart = [] then none
    else
      match parseExpPart rest2 with
      | none => none
      | some e => some (digitsVal (intPart ++ fracPart), e - fracPart.length)
  | _ =>
    match parseExpPart rest with
    | none => none
    | some e => if intPart = [] then none else some (digitsVal intPart, e)

/-- Signed body of a `StringNumericLiteral` (after the optional sign):
`Infinity` or a decimal literal. -/
def parseSignedBody (neg : Bool) (l : List Char) : JsNum :=
  if l = "Infinity".data then JsNum.inf neg
  else
    match parseDecimalBody l with
    | some me => JsNum.fin (if neg then -(me.1 : ℤ) else (me.1 : ℤ)) me.2
    | none => JsNum.nan

/-- Radix (hex/octal/binary) literal digits, allowed only without a sign. -/
def parseRadixBody (base : Nat) (ds : List Char) : JsNum :=
  let ok : Char → Bool := fun c =>
    if base = 16 then isHexDigit c
    else if base = 8 then '0' ≤ c && c ≤ '7'
    else c == '0' || c == '1'
  if ds ≠ [] && ds.all ok then
    JsNum.fin (ds.foldl (fun a c => base * a + hexDigitVal c) 0 : Nat) 0
  else JsNum.nan

/-- JavaScript `Number(s)` for a string argument: trim, then interpret the
`StringNumericLiteral` grammar (empty string is `0`; `0x`/`0o`/`0b`
literals are unsigned; otherwise optional sign then `Infinity` or a
decimal literal). -/
def jsStrToNum (s : String) : JsNum :=
  match jsTrimList s.data with
  | [] => JsNum.fin 0 0
  | '+' :: rest => parseSignedBody false rest
  | '-' :: rest => parseSignedBody true rest
  | '0' :: c :: rest =>
    if c == 'x' || c == 'X' then parseRadixBody 16 rest
    else if c == 'o' || c == 'O' then parseRadixBody 8 rest
    else if c == 'b' || c == 'B' then parseRadixBody 2 rest
    else parseSignedBody false ('0' :: c :: rest)
  | l => parseSignedBody false l

/-! ### ethers v6 `parseUnits(value, 18)`

`parseUnits` delegates to `FixedNumber.fromString(value, { decimals: 18,
width: 512 })` and returns its `BigInt` value.  `fromString` matches the
anchored pattern `(-?)([0-9]*)\.?([0-9]*)`, requires at least one digit,
throws a numeric fault when the fractional part is longer than 18 digits,
builds the integer from the concatenated digits padded to 18 fractional
places, and checks the signed 512-bit width.  Failure (`none`) corresponds
to a thrown exception in the handler. -/

/-- Split a candidate fixed-point literal according to the ethers pattern
`^(-?)([0-9]*)\.?([0-9]*)$`: sign, whole digits, fractional digits. -/
def splitFixed (l : List Char) : Option (Bool × List Char × List Char) :=
  let signAndRest : Bool × List Char :=
    match l with
    | '-' :: r => (true, r)
    | _ => (false, l)
  let neg := signAndRest.1
  let l1 := signAndRest.2
  let whole := l1.takeWhile Char.isDigit
  match l1.dropWhile Char.isDigit with
  | [] => some (neg, whole, [])
  | '.' :: r2 =>
    if (r2.dropWhile Char.isDigit) = [] then some (neg, whole, r2.takeWhile Char.isDigit)
    else none
  | _ => none

/-- ethers v6 `parseUnits(s, 18)`: the scaled on-chain integer, or `none`
when ethers throws (bad pattern, no digits, more than 18 fractional
digits, or 512-bit overflow). -/
def parseUnits18 (s : String) : Option ℤ :=
  match splitFixed s.data with
  | none => none
  | some (neg, whole, frac) =>
    if whole.length + frac.length = 0 then none
    else if 18 < frac.length then none
    else
      let magnitude : Nat := digitsVal (whole ++ frac) * 10 ^ (18 - frac.length)
      let v : ℤ := if neg then -(magnitude : ℤ) else (magnitude : ℤ)
      if v < -(2 ^ 511) ∨ 2 ^ 511 - 1 < v then none else some v

/-- Exact rational value of a fixed-point literal accepted by
`splitFixed`, written the way the specification reads it: the whole part
plus fraction-digits over `10 ^ (number of fraction digits)`. -/
def fixedRatValue (s : String) : ℚ :=
  match splitFixed s.data with
  | none => 0
  | some (neg, whole, frac) =>
    let q : ℚ := (digitsVal whole : ℚ) + (digitsVal frac : ℚ) / 10 ^ frac.length
    if neg then -q else q

/-! ### Keccak-256

The ethers address checksum (EIP-55) hashes the lowercase address body
with keccak-256 (ethers delegates to an embedded js-sha3 core).  Lanes are
64-bit words embedded as `Nat` reduced modulo `2 ^ 64`; the state is a
list of 25 lanes indexed `x + 5 * y`. -/

/-- All-ones 64-bit mask. -/
def mask64 : Nat := 2 ^ 64 - 1

/-- Left rotation of a 64-bit lane. -/
def rotl64 (x n : Nat) : Nat := ((x <<< n) ||| (x >>> (64 - n))) &&& mask64

/-- Keccak round constants (iota step), one per round, in decimal. -/
def keccakRC : List Nat :=
  [1, 32898, 9223372036854808714,
   9223372039002292224, 32907, 2147483649,
   9223372039002292353, 9223372036854808585, 138,
   136, 2147516425, 2147483658,
   2147516555, 9223372036854775947, 9223372036854808713,
   9223372036854808579, 9223372036854808578, 9223372036854775936,
   32778, 9223372039002259466, 9223372039002292353,
   9223372036854808704, 2147483649, 9223372039002292232]

/-- Keccak rotation offsets (rho step), row by row, indexed by lane
position `x + 5y`. -/
def rhoOffsets : List Nat :=
  [0, 1, 62, 28, 27] ++ [36, 44, 6, 55, 20] ++ [3, 10, 43, 25, 39] ++
    [41, 45, 15, 21, 8] ++ [18, 2, 61, 56, 14]

/-- Keccak theta step: column parities xored back into every lane. -/
def thetaStep (A : List Nat) : List Nat :=
  let C := (List.range 5).map fun x =>
    A.getD x 0 ^^^ A.getD (x + 5) 0 ^^^ A.getD (x + 10) 0 ^^^ A.getD (x + 15) 0 ^^^ A.getD (x + 20) 0
  let D := (List.range 5).map fun x => C.getD ((x + 4) % 5) 0 ^^^ rotl64 (C.getD ((x + 1) % 5) 0) 1
  (List.range 25).map fun i => A.getD i 0 ^^^ D.getD (i % 5) 0

/-- Keccak rho and pi steps: rotate each lane and move it to its target
position `(y, 2x + 3y)`. -/
def rhoPiStep (A : List Nat) : List Nat :=
  (List.range 25).foldl
    (fun B i =>
      let x := i % 5
      let y := i / 5
      B.set (y + 5 * ((2 * x + 3 * y) % 5)) (rotl64 (A.getD i 0) (rhoOffsets.getD i 0)))
    (List.replicate 25 0)

/-- Keccak chi step: nonlinear row mixing. -/
def chiStep (B : List Nat) : List Nat :=
  (List.range 25).map fun i =>
    let x := i % 5
    let y := i / 5
    B.getD i 0 ^^^ ((B.getD ((x + 1) % 5 + 5 * y) 0 ^^^ mask64) &&& B.getD ((x + 2) % 5 + 5 * y) 0)

/-- One keccak-f round with the given round constant. -/
def keccakRound (A : List Nat) (rc : Nat) : List Nat :=
  let C := chiStep (rhoPiStep (thetaStep A))
  C.set 0 (C.getD 0 0 ^^^ rc)

/-- The keccak-f[1600] permutation: 24 rounds. -/
def keccakF (A : List Nat) : List Nat := keccakRC.foldl keccakRound A

/-- Keccak (pre-SHA3, domain byte `0x01`) multi-rate padding at rate 136
bytes. -/
def keccakPad (msg : List Nat) : List Nat :=
  let padLen := 136 - msg.length % 136
  if padLen = 1 then msg ++ [0x81]
  else msg ++ 0x01 :: (List.replicate (padLen - 2) 0 ++ [0x80])

/-- Little-endian 64-bit lane from (up to) 8 bytes. -/
def leLane (bs : List Nat) : Nat := bs.foldr (fun b a => a * 256 + b) 0

/-- Little-endian bytes of a 64-bit lane. -/
def laneBytes (x : Nat) : List Nat := (List.range 8).map fun i => (x >>> (8 * i)) % 256

/-- Absorb a single 136-byte block into the sponge state and permute. -/
def absorbBlock (S block : List Nat) : List Nat :=
  keccakF ((List.range 25).map fun i =>
    S.getD i 0 ^^^ (if i < 17 then leLane ((block.drop (8 * i)).take 8) else 0))

/-- Absorb a padded message block by block. -/
def absorb : List Nat → List Nat → List Nat
  | S, [] => S
  | S, b :: rest => absorb (absorbBlock S ((b :: rest).take 136)) (rest.drop 135)
termination_by _ l => l.length
decreasing_by simp [List.length_drop]; omega

/-- Keccak-256 of a byte list: absorb the padded input and squeeze 32
bytes (the first four lanes, little-endian). -/
def keccak256 (msg : List Nat) : List Nat :=
  let S := absorb (List.replicate 25 0) (keccakPad msg)
  (((List.range 4).map fun i => laneBytes (S.getD i 0))).flatten

/-! ### ethers v6 `getAddress` / `isAddress`

`getAddress` accepts a string matching `^(0x)?[0-9a-fA-F]{40}$`, prepends
the prefix when missing, computes the EIP-55 checksummed form, and throws
`bad address checksum` when the input mixes upper- and lower-case hex
letters (`/([A-F].*[a-f])|([a-f].*[A-F])/`, tested on the prefixed form)
but differs from the checksummed form.  Otherwise it accepts an ICAP
string `^XE[0-9]{2}[0-9A-Za-z]{30,31}$` whose IBAN (mod-97) checksum
matches.  Everything else throws.  `isAddress` returns whether
`getAddress` does not throw.  (Both regex tests involve only hex-digit or
alphanumeric characters, so the JavaScript `.`-excludes-newline subtlety
cannot arise.) -/

/-- Lower-case hex letter, the character class `[a-f]`. -/
def isLowerHexLetter (c : Char) : Bool := 'a' ≤ c && c ≤ 'f'

/-- Upper-case hex letter, the character class `[A-F]`. -/
def isUpperHexLetter (c : Char) : Bool := 'A' ≤ c && c ≤ 'F'

/-- ASCII `toLowerCase`, restricted to the hex letters it can act on here. -/
def lowerHexChar (c : Char) : Char :=
  if isUpperHexLetter c then Char.ofNat (c.toNat + 32) else c

/-- ASCII `toUpperCase`, restricted to the hex letters it can act on here. -/
def upperHexChar (c : Char) : Char :=
  if isLowerHexLetter c then Char.ofNat (c.toNat - 32) else c

/-- The anchored test `^(0x)?[0-9a-fA-F]{40}$`. -/
def matchHex40 (l : List Char) : Bool :=
  (l.length = 42 && listIsPrefix ['0', 'x'] l && (l.drop 2).all isHexDigit)
    || (l.length = 40 && l.all isHexDigit)

/-- The unanchored test `/([A-F].*[a-f])|([a-f].*[A-F])/`: some upper-case
hex letter strictly before a lower-case one, or the other way round. -/
def scanMixed : List Char → Bool
  | [] => false
  | c :: r =>
    (isUpperHexLetter c && r.any isLowerHexLetter)
      || (isLowerHexLetter c && r.any isUpperHexLetter)
      || scanMixed r

/-- EIP-55 checksummed form of a prefixed address `0x` + 40 hex digits:
lower-case the body, keccak-hash its ASCII bytes, and upper-case every
digit whose corresponding hash nibble is at least 8. -/
def getChecksumAddress (addr : List Char) : List Char :=
  let lower := (addr.drop 2).map lowerHexChar
  let hash := keccak256 (lower.map Char.toNat)
  let nibbles := ((hash.map fun b => [b / 16, b % 16])).flatten
  '0' :: 'x' :: List.zipWith (fun c n => if 8 ≤ n then upperHexChar c else c) lower nibbles

/-- Alphanumeric character class `[0-9A-Za-z]` of the ICAP pattern. -/
def isIcapAlnum (c : Char) : Bool :=
  c.isDigit || ('A' ≤ c && c ≤ 'Z') || ('a' ≤ c && c ≤ 'z')

/-- The anchored test `^XE[0-9]{2}[0-9A-Za-z]{30,31}$`. -/
def matchIcap (l : List Char) : Bool :=
  match l with
  | c1 :: c2 :: d1 :: d2 :: rest =>
    c1 == 'X' && c2 == 'E' && d1.isDigit && d2.isDigit &&
      (rest.length = 30 || rest.length = 31) && rest.all isIcapAlnum
  | _ => false

/-- IBAN character value: digits map to themselves, letters (either case)
to 10 through 35. -/
def ibanDigitVal (c : Char) : Nat :=
  if c.isDigit then c.toNat - 48
  else if 'A' ≤ c && c ≤ 'Z' then c.toNat - 55
  else if 'a' ≤ c && c ≤ 'z' then c.toNat - 87
  else 0

/-- Value of the IBAN digit expansion: digits contribute one decimal
place, letters two (their two-digit value).  The source computes the same
remainder chunk-wise to stay within float-safe integers; the exact value
embedded here has the same residue mod 97. -/
def ibanExpandVal (l : List Char) : Nat :=
  l.foldl (fun a c => if c.isDigit then 10 * a + ibanDigitVal c else 100 * a + ibanDigitVal c) 0

/-- Decimal digit character. -/
def digitChar (n : Nat) : Char := Char.ofNat (48 + n)

/-- The two checksum characters `ibanChecksum` computes for an ICAP
string: move the first four characters to the end, zero the checksum
slot, and render `98 - (value mod 97)` zero-padded to two digits. -/
def ibanChecksumChars (l : List Char) : List Char :=
  let rearranged := l.drop 4 ++ l.take 2 ++ ['0', '0']
  let n := 98 - ibanExpandVal rearranged % 97
  if n < 10 then ['0', digitChar n] else [digitChar (n / 10), digitChar (n % 10)]

/-- Base-36 value of an ICAP body (`fromBase36`). -/
def base36Val (l : List Char) : Nat := l.foldl (fun a c => 36 * a + ibanDigitVal c) 0

/-- Lower-case hexadecimal digit character. -/
def hexChar (n : Nat) : Char :=
  if n < 10 then Char.ofNat (48 + n) else Char.ofNat (87 + n)

/-- Hexadecimal digits of `n` (most significant first, empty for zero),
with explicit fuel so that the recursion is structural. -/
def natHexDigitsAux : Nat → Nat → List Char
  | 0, _ => []
  | fuel + 1, n => if n = 0 then [] else natHexDigitsAux fuel (n / 16) ++ [hexChar (n % 16)]

/-- JavaScript `n.toString(16)` for a nonnegative `BigInt`. -/
def natToHexStr (n : Nat) : List Char :=
  if n = 0 then ['0'] else natHexDigitsAux (n + 1) n

/-- Left-pad a character list with zeros to the given width. -/
def padLeftZeros (l : List Char) (width : Nat) : List Char :=
  List.replicate (width - l.length) '0' ++ l

/-- ethers v6 `getAddress`: the checksummed address on success, `none`
where the source throws. -/
def getAddressResult (s : String) : Option (List Char) :=
  let l := s.data
  if matchHex40 l then
    let n := if listIsPrefix ['0', 'x'] l then l else '0' :: 'x' :: l
    let result := getChecksumAddress n
    if scanMixed n && result ≠ n then none else some result
  else if matchIcap l then
    if (l.take 4).drop 2 = ibanChecksumChars l then
      some (getChecksumAddress ('0' :: 'x' :: padLeftZeros (natToHexStr (base36Val (l.drop 4))) 40))
    else none
  else none

/-- ethers v6 `isAddress`: `getAddress` does not throw. -/
def isAddress (s : String) : Bool := (getAddressResult s).isSome

/-! ### ABI call data for `transfer(address,uint256)`

`ERC20_IFACE.encodeFunctionData("transfer", [to, value])` produces the
4-byte function selector followed by the two arguments as 32-byte
big-endian words in lowercase hex.  The selector is the first four bytes
of the keccak-256 of the canonical signature `transfer(address,uint256)`;
the Interface computes it once from the ABI fragment and it is the fixed
constant `a9059cbb`.  The address argument is encoded by its numeric
value (checksumming only changes letter case, which the numeric value
ignores); the uint256 coder throws outside `[0, 2^256)`. -/

/-- The fixed 4-byte selector of `transfer(address,uint256)`. -/
def transferSelector : List Char := ['a', '9', '0', '5', '9', 'c', 'b', 'b']

/-- Numeric value of a string accepted by `isAddress`: the hex value of
the 40-digit body, or the base-36 value of an ICAP body. -/
def addrNumericValue (s : String) : Nat :=
  let l := s.data
  if matchHex40 l then hexVal (if listIsPrefix ['0', 'x'] l then l.drop 2 else l)
  else if matchIcap l then base36Val (l.drop 4)
  else 0

/-- A value rendered as a 32-byte (64 hex digit) big-endian word. -/
def natHexPad64 (n : Nat) : List Char := padLeftZeros (natToHexStr n) 64

/-- Call data built by `encodeFunctionData("transfer", [to, value])`;
`none` where the coder throws (value outside uint256 range). -/
def encodeTransferData (toA : String) (v : ℤ) : Option String :=
  if v < 0 ∨ (2 : ℤ) ^ 256 ≤ v then none
  else
    some (String.mk ('0' :: 'x' :: (transferSelector ++ natHexPad64 (addrNumericValue toA) ++ natHexPad64 v.toNat)))

/-! ### Handler: POST `/api/token-transfer`

The request body fields are modelled as optional strings (`none` for a
missing field); JSON bodies that fail to parse, and non-string `amount`
values, are outside the model.  The configured contract address
(environment variable with the deployed default) is an explicit
parameter. -/

/-- The default `LXUSD_CONTRACT_ADDRESS` used when the environment does
not override it. -/
def defaultContractAddress : String := "0xE3a2798bA79a1Fe34b6ad050c7fC791E4346a6c9"

/-- Parsed JSON body of a token-transfer request. -/
structure TransferRequest where
  fromAddr : Option String
  toAddr : Option String
  amount : Option String
  deriving DecidableEq

/-- The JSON responses the token-transfer handler can build, in source
order.  `ok` is the 200 success body; its fields are the `transactionData`
object. -/
inductive TransferResponse where
  | missingFields
  | invalidAddressFormat
  | contractNotConfigured
  | invalidAmount
  | ok (toA dataHex valueHex : String)
  | serverError
  deriving DecidableEq

/-- HTTP status of each token-transfer response. -/
def transferStatus : TransferResponse → Nat
  | TransferResponse.ok _ _ _ => 200
  | TransferResponse.contractNotConfigured => 500
  | TransferResponse.serverError => 500
  | _ => 400

/-- The `error` field of each token-transfer response body. -/
def transferErrorField : TransferResponse → Option String
  | TransferResponse.missingFields => some "Missing required fields: from, to, amount"
  | TransferResponse.invalidAddressFormat => some "Invalid address format"
  | TransferResponse.contractNotConfigured =>
    some "LXUSD contract address not configured. Please set NEXT_PUBLIC_LXUSD_CONTRACT_ADDRESS."
  | TransferResponse.invalidAmount => some "Invalid amount"
  | TransferResponse.serverError => some "Failed to create transfer transaction"
  | TransferResponse.ok _ _ _ => none

/-- The POST handler of `src/app/api/token-transfer/route.ts`. -/
def tokenTransferPost (req : TransferRequest) (contractAddress : String) : TransferResponse :=
  match req.fromAddr, req.toAddr, req.amount with
  | some f, some t, some a =>
    if !(jsTruthy f && jsTruthy t && jsTruthy a) then TransferResponse.missingFields
    else if !(isAddress f && isAddress t) then TransferResponse.invalidAddressFormat
    else if !isAddress contractAddress then TransferResponse.contractNotConfigured
    else
      let amountStr := jsTrim a
      if !jsTruthy amountStr || jsNumBad (jsStrToNum amountStr) then TransferResponse.invalidAmount
      else
        match parseUnits18 amountStr with
        | none => TransferResponse.serverError
        | some v =>
          match encodeTransferData t v with
          | none => TransferResponse.serverError
          | some dataHex => TransferResponse.ok contractAddress dataHex "0x0"
  | _, _, _ => TransferResponse.missingFields

/-! ### Handler: POST tx-params

The four node queries (`getNetwork`, `getTransactionCount`, `getFeeData`,
`estimateGas`) run under `Promise.all`; each is passed in as an `Except`
value, a rejection carrying its error message.  Node-reported numeric
quantities are nonnegative, so `BigInt` fields are embedded as `Nat`
(making `/` the `BigInt` truncating division). -/

/-- Result of `provider.getFeeData()`: each field may be `null`. -/
structure FeeData where
  gasPrice : Option Nat
  maxFeePerGas : Option Nat
  maxPriorityFeePerGas : Option Nat
  deriving DecidableEq

/-- Parsed JSON body of a tx-params request. -/
structure TxParamsRequest where
  fromAddr : Option String
  toAddr : Option String
  dataField : Option String
  deriving DecidableEq

/-- The JSON responses the tx-params handler can build, in source order. -/
inductive TxParamsResponse where
  | missingFields
  | invalidAddressFormat
  | invalidDataField
  | ok (chainId : Nat) (nonceHex : String) (gas : Nat) (maxFeePerGas : Nat) (maxPriorityFeePerGas : Nat)
  | serverError
  deriving DecidableEq

/-- HTTP status of each tx-params response. -/
def txParamsStatus : TxParamsResponse → Nat
  | TxParamsResponse.ok _ _ _ _ _ => 200
  | TxParamsResponse.serverError => 500
  | _ => 400

/-- JavaScript `"0x" + nonce.toString(16)`. -/
def nonceHexStr (n : Nat) : String := String.mk ('0' :: 'x' :: natToHexStr n)

/-- The POST handler of the tx-params route (second handler in
`src/app/api/token-transfer/route.ts`). -/
def txParamsPost (req : TxParamsRequest) (network : Except String Nat)
    (nonce : Except String Nat) (fee : Except String FeeData)
    (gasEstimate : Except String Nat) : TxParamsResponse :=
  match req.fromAddr, req.toAddr, req.dataField with
  | some f, some t, some d =>
    if !(jsTruthy f && jsTruthy t && jsTruthy d) then TxParamsResponse.missingFields
    else if !(isAddress f && isAddress t) then TxParamsResponse.invalidAddressFormat
    else if !jsStartsWith d "0x" then TxParamsResponse.invalidDataField
    else
      match network, nonce, fee, gasEstimate with
      | Except.ok chainId, Except.ok n, Except.ok fd, Except.ok est =>
        let gasBuffered := est * 12 / 10
        let gasPrice := fd.gasPrice.getD 1000000000
        let maxPriorityFeePerGas := fd.maxPriorityFeePerGas.getD (gasPrice / 2)
        let maxFeePerGas := fd.maxFeePerGas.getD gasPrice
        TxParamsResponse.ok chainId (nonceHexStr n) gasBuffered maxFeePerGas maxPriorityFeePerGas
      | _, _, _, _ => TxParamsResponse.serverError
  | _, _, _ => TxParamsResponse.missingFields

/-! ### Handlers: POST and GET of the transaction route

The node is reached through raw `fetch` JSON-RPC calls; the parsed JSON
reply is a record with an optional `error` envelope and an optional
`result` string.  A network or JSON failure is the `Except.error` case
(the handler's catch branch). -/

/-- The JSON-RPC error envelope of a node reply. -/
structure RpcErrObj where
  code : ℤ
  message : Option String
  dataField : Option String
  deriving DecidableEq

/-- A parsed JSON-RPC reply. -/
structure RpcReply where
  errorObj : Option RpcErrObj
  result : Option String
  deriving DecidableEq

/-- JavaScript `o || d` for an optional string: the default substitutes
for a missing or empty (falsy) value. -/
def jsOrDefault (o : Option String) (d : String) : String :=
  match o with
  | some m => if m = "" then d else m
  | none => d

/-- The JSON responses of the broadcast (POST) handler, in source order.
`rejected` is the 400 body built from a node error envelope: its
`message`, `code` and `data` fields. -/
inductive BroadcastResponse where
  | signedRequired
  | rejected (message : String) (code : ℤ) (dataField : Option String)
  | ok (txHash : Option String)
  | serverError
  deriving DecidableEq

/-- HTTP status of each broadcast response. -/
def broadcastStatus : BroadcastResponse → Nat
  | BroadcastResponse.signedRequired => 400
  | BroadcastResponse.rejected _ _ _ => 400
  | BroadcastResponse.ok _ => 200
  | BroadcastResponse.serverError => 500

/-- The POST handler of the transaction route (`eth_sendRawTransaction`
proxy). -/
def transactionPost (signedTransaction : Option String)
    (node : Except String RpcReply) : BroadcastResponse :=
  if !jsTruthyOpt signedTransaction then BroadcastResponse.signedRequired
  else
    match node with
    | Except.error _ => BroadcastResponse.serverError
    | Except.ok r =>
      match r.errorObj with
      | some e =>
        BroadcastResponse.rejected (jsOrDefault e.message "Unknown error") e.code e.dataField
      | none => BroadcastResponse.ok r.result

/-- The JSON responses of the nonce (GET) handler, in source order. -/
inductive NonceResponse where
  | invalidWallet
  | fetchFailed (message : String)
  | ok (nonce : Option String)
  | serverError
  deriving DecidableEq

/-- HTTP status of each nonce response. -/
def nonceStatus : NonceResponse → Nat
  | NonceResponse.invalidWallet => 400
  | NonceResponse.fetchFailed _ => 400
  | NonceResponse.ok _ => 200
  | NonceResponse.serverError => 500

/-- Processing of the node reply to `eth_getTransactionCount` (the part of
the GET handler after the address guard). -/
def processNonceNode : Except String RpcReply → NonceResponse
  | Except.error _ => NonceResponse.serverError
  | Except.ok r =>
    match r.errorObj with
    | some e => NonceResponse.fetchFailed (jsOrDefault e.message "Unknown error")
    | none => NonceResponse.ok r.result

/-- The GET handler of the transaction route.  The node is a function of
the address actually forwarded in the RPC `params`, so the theorem about
this handler can speak about which request reaches the node. -/
def transactionGet (address : Option String)
    (node : String → Except String RpcReply) : NonceResponse :=
  match address with
  | none => NonceResponse.invalidWallet
  | some a =>
    if !(jsTruthy a && jsStartsWith a "0x") then NonceResponse.invalidWallet
    else processNonceNode (node a)

/-! ### Handler: GET `/api/balances`

The three node queries (native balance, `balanceOf`, `decimals`) run
under one `Promise.all`; the triple is passed as one `Except` (no claim
distinguishes which of the three failed).  The displayed balances are
produced by `Number.parseFloat(Number(format...(raw)).toFixed(3))`: a
decimal with at most three fractional digits, embedded exactly as an
integer number of thousandths (the double-precision detour is exact at
testnet balance magnitudes). -/

/-- Balance display rounding: `raw / 10 ^ dec` in thousandths, rounded to
nearest with ties away from zero (`toFixed`), on nonnegative inputs. -/
def nearestMilli (raw dec : Nat) : Nat :=
  (2000 * raw + 10 ^ dec) / (2 * 10 ^ dec)

/-- The JSON responses of the balances handler, in source order.  The
three `ok` fields are `xrplBalance`, `lxusdBalance` and `usdcBalance`, in
thousandths. -/
inductive BalancesResponse where
  | invalidWallet
  | contractNotConfigured
  | ok (xrplMilli lxusdMilli usdcMilli : Nat)
  | serverError
  deriving DecidableEq

/-- HTTP status of each balances response. -/
def balancesStatus : BalancesResponse → Nat
  | BalancesResponse.invalidWallet => 400
  | BalancesResponse.contractNotConfigured => 500
  | BalancesResponse.ok _ _ _ => 200
  | BalancesResponse.serverError => 500

/-- The GET handler of `src/app/api/balances/route.ts`.  The node triple
is (native balance in wei, raw token balance, token decimals). -/
def balancesGet (address : Option String) (contractAddress : String)
    (node : Except String (Nat × Nat × Nat)) : BalancesResponse :=
  match address with
  | none => BalancesResponse.invalidWallet
  | some a =>
    if !(jsTruthy a && isAddress a) then BalancesResponse.invalidWallet
    else if !isAddress contractAddress then BalancesResponse.contractNotConfigured
    else
      match node with
      | Except.error _ => BalancesResponse.serverError
      | Except.ok (wei, raw, dec) =>
        let xrplBalance := nearestMilli wei 18
        let lxusdBalance := nearestMilli raw dec
        BalancesResponse.ok xrplBalance lxusdBalance lxusdBalance

/-! ### Concrete data used by witnesses -/

/-- A well-formed lowercase address used as a transfer sender in
witnesses. -/
def addrA : String := "0x1111111111111111111111111111111111111111"

/-- A well-formed lowercase address used as a transfer recipient in
witnesses. -/
def addrB : String := "0x2222222222222222222222222222222222222222"

/-- The deployed contract address in all-lowercase form. -/
def contractLower : String := "0xe3a2798ba79a1fe34b6ad050c7fc791e4346a6c9"

/-! ### Inversion of the handlers on success -/

/-- A successful token-transfer response comes from a request whose three
fields are present, whose trimmed amount scaled exactly, whose call data
encoded, with destination the configured contract and value `0x0`. -/
theorem tokenTransferPost_ok_inv {req : TransferRequest} {ca t dH v : String}
    (h : tokenTransferPost req ca = TransferResponse.ok t dH v) :
    ∃ f ta a val,
      req = ⟨some f, some ta, some a⟩ ∧
      parseUnits18 (jsTrim a) = some val ∧
      encodeTransferData ta val = some dH ∧
      t = ca ∧ v = "0x0" := by
  rcases req with ⟨f, ta, a⟩
  cases f with
  | none => simp [tokenTransferPost] at h
  | some f =>
    cases ta with
    | none => simp [tokenTransferPost] at h
    | some ta =>
      cases a with
      | none => simp [tokenTransferPost] at h
      | some a =>
        simp only [tokenTransferPost] at h
        split at h
        · cases h
        · split at h
          · cases h
          · split at h
            · cases h
            · split at h
              · cases h
              · split at h
                · cases h
                · rename_i val hval
                  split at h
                  · cases h
                  · rename_i dHex hdHex
                    cases h
                    exact ⟨f, ta, a, val, rfl, hval, hdHex, rfl, rfl⟩

/-- A successful tx-params response comes from four successful node
queries, and its payload is exactly the assembled parameters. -/
theorem txParamsPost_ok_inv {req : TxParamsRequest}
    {network nonce : Except String Nat} {fee : Except String FeeData}
    {gasEstimate : Except String Nat} {c : Nat} {nH : String} {g mf mp : Nat}
    (h : txParamsPost req network nonce fee gasEstimate = TxParamsResponse.ok c nH g mf mp) :
    ∃ n fd est,
      network = Except.ok c ∧ nonce = Except.ok n ∧ fee = Except.ok fd ∧
      gasEstimate = Except.ok est ∧
      nH = nonceHexStr n ∧
      g = est * 12 / 10 ∧
      mf = fd.maxFeePerGas.getD (fd.gasPrice.getD 1000000000) ∧
      mp = fd.maxPriorityFeePerGas.getD (fd.gasPrice.getD 1000000000 / 2) := by
  rcases req with ⟨f, t, d⟩
  cases f with
  | none => simp [txParamsPost] at h
  | some f =>
    cases t with
    | none => simp [txParamsPost] at h
    | some t =>
      cases d with
      | none => simp [txParamsPost] at h
      | some d =>
        simp only [txParamsPost] at h
        split at h
        · cases h
        · split at h
          · cases h
          · split at h
            · cases h
            · split at h
              · rename_i chainId n fd est
                cases h
                exact ⟨n, fd, est, rfl, rfl, rfl, rfl, rfl, rfl, rfl, rfl⟩
              · cases h

/-- Nat division by 10 after multiplying by 12 is the rational floor of
`× 12 / 10`, the exact-integer gas-margin computation. -/
theorem gasBuffered_eq_floor (e : Nat) : (e * 12 / 10 : Nat) = ⌊(e : ℚ) * 12 / 10⌋₊ := by
  have h : ((e : ℚ) * 12) = ((e * 12 : Nat) : ℚ) := by push_cast; ring
  rw [h, show ((10 : ℚ)) = ((10 : Nat) : ℚ) by norm_num, Nat.floor_div_nat, Nat.floor_natCast]

/-- C1: for every gas estimate the node returns, the `gas` field of a
successful tx-params response is `floor(estimate × 12 / 10)` in exact
integer arithmetic; in particular estimate 0 gives gas 0 and estimate 5
gives gas 6. -/
theorem c1_gas_margin (req : TxParamsRequest) (ci n : Nat) (fd : FeeData) (est : Nat)
    (c : Nat) (nH : String) (g mf mp : Nat)
    (h : txParamsPost req (Except.ok ci) (Except.ok n) (Except.ok fd) (Except.ok est) =
      TxParamsResponse.ok c nH g mf mp) :
    g = ⌊(est : ℚ) * 12 / 10⌋₊ ∧ (est = 0 → g = 0) ∧ (est = 5 → g = 6) := by
  obtain ⟨n', fd', est', _, _, _, hest, _, hg, _, _⟩ := txParamsPost_ok_inv h
  cases hest
  refine ⟨hg.trans (gasBuffered_eq_floor est), ?_, ?_⟩
  · rintro rfl; simpa using hg
  · rintro rfl; simpa using hg

/-- Witness for C1: a concrete successful tx-params request with gas
estimate 5 answers gas 6, and the floor identity holds there. -/
theorem c1_gas_margin_witness :
    txParamsPost ⟨some addrA, some addrB, some "0xabc"⟩ (Except.ok 1440002) (Except.ok 0)
        (Except.ok ⟨none, none, none⟩) (Except.ok 5) =
      TxParamsResponse.ok 1440002 "0x0" 6 1000000000 500000000 ∧
    (6 : Nat) = ⌊(5 : ℚ) * 12 / 10⌋₊ :=
  ⟨by decide,
   (c1_gas_margin ⟨some addrA, some addrB, some "0xabc"⟩ 1440002 0 ⟨none, none, none⟩ 5
     1440002 "0x0" 6 1000000000 500000000 (by decide)).1⟩

/-- C2: a successful tx-params response applies the fallback chain in
order — `gasPrice` is the node value or 1 gwei, `maxPriorityFeePerGas`
the node value or `gasPrice / 2`, `maxFeePerGas` the node value or
`gasPrice` — so an all-null fee report yields 500000000 and
1000000000. -/
theorem c2_fee_fallback (req : TxParamsRequest) (ci n : Nat) (fd : FeeData) (est : Nat)
    (c : Nat) (nH : String) (g mf mp : Nat)
    (h : txParamsPost req (Except.ok ci) (Except.ok n) (Except.ok fd) (Except.ok est) =
      TxParamsResponse.ok c nH g mf mp) :
    mf = fd.maxFeePerGas.getD (fd.gasPrice.getD 1000000000) ∧
    mp = fd.maxPriorityFeePerGas.getD (fd.gasPrice.getD 1000000000 / 2) ∧
    (fd = ⟨none, none, none⟩ → mp = 500000000 ∧ mf = 1000000000) := by
  obtain ⟨n', fd', est', _, _, hfd, _, _, _, hmf, hmp⟩ := txParamsPost_ok_inv h
  cases hfd
  refine ⟨hmf, hmp, ?_⟩
  rintro rfl
  exact ⟨hmp, hmf⟩

/-- Witness for C2: the all-null fee report concretely produces the 1 gwei
and half-gwei fallbacks. -/
theorem c2_fee_fallback_witness :
    txParamsPost ⟨some addrA, some addrB, some "0xabc"⟩ (Except.ok 1440002) (Except.ok 7)
        (Except.ok ⟨none, none, none⟩) (Except.ok 21000) =
      TxParamsResponse.ok 1440002 "0x7" 25200 1000000000 500000000 ∧
    ((500000000 : Nat) = 500000000 ∧ (1000000000 : Nat) = 1000000000) :=
  ⟨by decide,
   (c2_fee_fallback ⟨some addrA, some addrB, some "0xabc"⟩ 1440002 7 ⟨none, none, none⟩ 21000
     1440002 "0x7" 25200 1000000000 500000000 (by decide)).2.2 rfl⟩

/-- C7: the four node queries form a fail-fast join — if any of the four
is an error the handler never answers a parameter object (and its
response status is not 200), and a parameter object implies all four
queries succeeded. -/
theorem c7_fail_fast (req : TxParamsRequest) (network nonce : Except String Nat)
    (fee : Except String FeeData) (gasEstimate : Except String Nat) :
    (((∃ e, network = Except.error e) ∨ (∃ e, nonce = Except.error e) ∨
        (∃ e, fee = Except.error e) ∨ (∃ e, gasEstimate = Except.error e)) →
      (∀ c nH g mf mp,
        txParamsPost req network nonce fee gasEstimate ≠ TxParamsResponse.ok c nH g mf mp) ∧
      txParamsStatus (txParamsPost req network nonce fee gasEstimate) ≠ 200) ∧
    (∀ c nH g mf mp,
      txParamsPost req network nonce fee gasEstimate = TxParamsResponse.ok c nH g mf mp →
      (∃ ci, network = Except.ok ci) ∧ (∃ n, nonce = Except.ok n) ∧
      (∃ fd, fee = Except.ok fd) ∧ (∃ est, gasEstimate = Except.ok est)) := by
  have notOk : ((∃ e, network = Except.error e) ∨ (∃ e, nonce = Except.error e) ∨
      (∃ e, fee = Except.error e) ∨ (∃ e, gasEstimate = Except.error e)) →
      ∀ c nH g mf mp,
        txParamsPost req network nonce fee gasEstimate ≠ TxParamsResponse.ok c nH g mf mp := by
    rintro herr c nH g mf mp h
    obtain ⟨n, fd, est, h1, h2, h3, h4, _⟩ := txParamsPost_ok_inv h
    rcases herr with ⟨e, he⟩ | ⟨e, he⟩ | ⟨e, he⟩ | ⟨e, he⟩ <;> subst he
    · exact Except.noConfusion h1
    · exact Except.noConfusion h2
    · exact Except.noConfusion h3
    · exact Except.noConfusion h4
  constructor
  · intro herr
    refine ⟨notOk herr, ?_⟩
    cases hres : txParamsPost req network nonce fee gasEstimate with
    | ok c nH g mf mp => exact absurd hres (notOk herr c nH g mf mp)
    | missingFields => simp [txParamsStatus]
    | invalidAddressFormat => simp [txParamsStatus]
    | invalidDataField => simp [txParamsStatus]
    | serverError => simp [txParamsStatus]
  · intro c nH g mf mp h
    obtain ⟨n, fd, est, h1, h2, h3, h4, _⟩ := txParamsPost_ok_inv h
    exact ⟨⟨c, h1⟩, ⟨n, h2⟩, ⟨fd, h3⟩, ⟨est, h4⟩⟩

/-- Witness for C7: with a failed nonce query and all other inputs well
formed, the handler does not answer the parameter object it would
otherwise produce. -/
theorem c7_fail_fast_witness :
    txParamsPost ⟨some addrA, some addrB, some "0xabc"⟩ (Except.ok 1440002)
        (Except.error "nonce query failed") (Except.ok ⟨none, none, none⟩) (Except.ok 5) ≠
      TxParamsResponse.ok 1440002 "0x0" 6 1000000000 500000000 :=
  (c7_fail_fast ⟨some addrA, some addrB, some "0xabc"⟩ (Except.ok 1440002)
      (Except.error "nonce query failed") (Except.ok ⟨none, none, none⟩) (Except.ok 5)).1
    (Or.inr (Or.inl ⟨"nonce query failed", rfl⟩)) |>.1 1440002 "0x0" 6 1000000000 500000000

/-- C8: every success response of the token-transfer handler carries
`transactionData.value = "0x0"` and `transactionData.to` equal to the
configured token-contract address, whatever the request was. -/
theorem c8_success_to_and_value (req : TransferRequest) (ca t dH v : String)
    (h : tokenTransferPost req ca = TransferResponse.ok t dH v) :
    v = "0x0" ∧ t = ca := by
  obtain ⟨f, ta, a, val, _, _, _, ht, hv⟩ := tokenTransferPost_ok_inv h
  exact ⟨hv, ht⟩

/-- Call data of the concrete witness transfer (10.5 tokens to `addrB`). -/
def witnessCallData : String :=
  "0xa9059cbb000000000000000000000000222222222222222222222222222222222222222200000000000000000000000000000000000000000000000091b77e5e5d9a0000"

/-- Witness for C8 at a concrete successful request. -/
theorem c8_success_to_and_value_witness :
    tokenTransferPost ⟨some addrA, some addrB, some "10.5"⟩ contractLower =
      TransferResponse.ok contractLower witnessCallData "0x0" ∧
    ("0x0" = "0x0" ∧ contractLower = contractLower) :=
  ⟨by decide,
   c8_success_to_and_value ⟨some addrA, some addrB, some "10.5"⟩ contractLower
     contractLower witnessCallData "0x0" (by decide)⟩

/-- C9: a success response of the balances handler reports the same value
in `usdcBalance` as in `lxusdBalance`. -/
theorem c9_usdc_equals_lxusd (addr : Option String) (ca : String)
    (node : Except String (Nat × Nat × Nat)) (x l u : Nat)
    (h : balancesGet addr ca node = BalancesResponse.ok x l u) : u = l := by
  cases addr with
  | none => simp [balancesGet] at h
  | some a =>
    simp only [balancesGet] at h
    split at h
    · cases h
    · split at h
      · cases h
      · split at h
        · cases h
        · rename_i wei raw dec
          cases h
          rfl

/-- Witness for C9 at a concrete balance query. -/
theorem c9_usdc_equals_lxusd_witness :
    balancesGet (some addrA) contractLower (Except.ok (1234500000000000000, 500, 2)) =
      BalancesResponse.ok 1235 5000 5000 ∧ (5000 : Nat) = 5000 :=
  ⟨by decide,
   c9_usdc_equals_lxusd (some addrA) contractLower (Except.ok (1234500000000000000, 500, 2))
     1235 5000 5000 (by decide)⟩

/-- Strings that start with the `0x` prefix are nonempty (truthy). -/
theorem jsTruthy_of_startsWith0x {a : String} (h : jsStartsWith a "0x" = true) :
    jsTruthy a = true := by
  by_contra hf
  have ha : a = "" := by
    simpa [jsTruthy] using hf
  subst ha
  simp [jsStartsWith, listIsPrefix] at h

/-- The node-reply processing never answers the invalid-wallet body. -/
theorem processNonceNode_ne_invalidWallet (r : Except String RpcReply) :
    processNonceNode r ≠ NonceResponse.invalidWallet := by
  cases r with
  | error e => simp [processNonceNode]
  | ok r =>
    cases hr : r.errorObj <;> simp [processNonceNode, hr]

/-- C10: the nonce query route answers its invalid-wallet 400 exactly when
the address parameter is absent or does not start with `0x`, and every
address that does start with `0x` is forwarded to the node as given. -/
theorem c10_nonce_guard (addr : Option String) (node : String → Except String RpcReply) :
    (transactionGet addr node = NonceResponse.invalidWallet ↔
      (addr = none ∨ ∃ a, addr = some a ∧ jsStartsWith a "0x" = false)) ∧
    (∀ a, addr = some a → jsStartsWith a "0x" = true →
      transactionGet addr node = processNonceNode (node a)) := by
  constructor
  · cases addr with
    | none => simp [transactionGet]
    | some a =>
      simp only [transactionGet]
      by_cases hs : jsStartsWith a "0x" = true
      · have ht := jsTruthy_of_startsWith0x hs
        rw [if_neg (by simp [ht, hs])]
        constructor
        · intro h
          exact absurd h (processNonceNode_ne_invalidWallet (node a))
        · rintro (h | ⟨a', ha', hs'⟩)
          · cases h
          · cases ha'
            rw [hs] at hs'
            cases hs'
      · have hs' : jsStartsWith a "0x" = false := by
          cases hv : jsStartsWith a "0x"
          · rfl
          · exact absurd hv hs
        rw [if_pos (by simp [hs'])]
        simp [hs']
  · intro a ha hs
    subst ha
    have ht := jsTruthy_of_startsWith0x hs
    simp only [transactionGet]
    rw [if_neg (by simp [ht, hs])]

/-- Witness for C10: a `0x`-prefixed but non-hexadecimal, wrong-length
address is still forwarded to the node, and a missing address is the
invalid-wallet 400. -/
theorem c10_nonce_guard_witness :
    transactionGet (some "0xZZ!") (fun _ => Except.ok ⟨none, some "0x5"⟩) =
      processNonceNode (Except.ok ⟨none, some "0x5"⟩) ∧
    transactionGet none (fun _ => Except.ok ⟨none, some "0x5"⟩) =
      NonceResponse.invalidWallet :=
  ⟨(c10_nonce_guard (some "0xZZ!") (fun _ => Except.ok ⟨none, some "0x5"⟩)).2 "0xZZ!" rfl
     (by decide),
   (c10_nonce_guard none (fun _ => Except.ok ⟨none, some "0x5"⟩)).1.mpr (Or.inl rfl)⟩

/-- C5 counterexample: a node error envelope with an empty message is not
carried verbatim — the handler substitutes "Unknown error" for it. -/
theorem c5_counterexample :
    transactionPost (some "0xdeadbeef")
        (Except.ok ⟨some ⟨-32000, some "", none⟩, none⟩) =
      BroadcastResponse.rejected "Unknown error" (-32000) none ∧
    "Unknown error" ≠ "" :=
  ⟨by decide, by decide⟩

/-- C5 (amended): whenever the node reply carries an error envelope, the
broadcast handler answers 400 with the envelope's code and data verbatim
and its message verbatim when present and non-empty ("Unknown error" is
substituted for an absent or empty message). -/
theorem c5_rejected_passthrough (signed : Option String) (node : Except String RpcReply)
    (r : RpcReply) (e : RpcErrObj) (hs : jsTruthyOpt signed = true)
    (hn : node = Except.ok r) (he : r.errorObj = some e) :
    transactionPost signed node =
      BroadcastResponse.rejected (jsOrDefault e.message "Unknown error") e.code e.dataField ∧
    broadcastStatus (transactionPost signed node) = 400 ∧
    (∀ m, e.message = some m → m ≠ "" → jsOrDefault e.message "Unknown error" = m) := by
  subst hn
  have h1 : transactionPost signed (Except.ok r) =
      BroadcastResponse.rejected (jsOrDefault e.message "Unknown error") e.code e.dataField := by
    simp [transactionPost, hs, he]
  refine ⟨h1, by rw [h1]; rfl, ?_⟩
  intro m hm hm'
  simp [jsOrDefault, hm, hm']

/-- Witness for C5: the insufficient-funds scenario — the node's message
is preserved and the status is 400. -/
theorem c5_rejected_passthrough_witness :
    transactionPost (some "0xf86c0a85")
        (Except.ok ⟨some ⟨-32000, some "insufficient funds", none⟩, none⟩) =
      BroadcastResponse.rejected "insufficient funds" (-32000) none ∧
    broadcastStatus
        (transactionPost (some "0xf86c0a85")
          (Except.ok ⟨some ⟨-32000, some "insufficient funds", none⟩, none⟩)) = 400 :=
  have h := c5_rejected_passthrough (some "0xf86c0a85")
    (Except.ok ⟨some ⟨-32000, some "insufficient funds", none⟩, none⟩)
    ⟨some ⟨-32000, some "insufficient funds", none⟩, none⟩
    ⟨-32000, some "insufficient funds", none⟩ (by decide) rfl rfl
  ⟨h.1, h.2.1⟩

/-! ### Exactness of the decimal scaling (C3) -/

/-- Folding decimal digits onto a nonzero accumulator shifts it by the
length of the digit string. -/
theorem digitsVal_foldl (acc : Nat) (b : List Char) :
    b.foldl (fun a c => 10 * a + (c.toNat - 48)) acc =
      acc * 10 ^ b.length + digitsVal b := by
  induction b generalizing acc with
  | nil => simp [digitsVal]
  | cons c r ih =>
    simp only [List.foldl_cons, List.length_cons]
    rw [ih (10 * acc + (c.toNat - 48)), show digitsVal (c :: r) = r.foldl
      (fun a c => 10 * a + (c.toNat - 48)) (10 * 0 + (c.toNat - 48)) from rfl,
      ih (10 * 0 + (c.toNat - 48))]
    ring

/-- Value of a concatenated digit string: the left digits are shifted by
the length of the right ones. -/
theorem digitsVal_append (a b : List Char) :
    digitsVal (a ++ b) = digitsVal a * 10 ^ b.length + digitsVal b := by
  unfold digitsVal
  rw [List.foldl_append]
  exact digitsVal_foldl _ b

/-- The scaled integer produced by `parseUnits18` denotes exactly the
decimal value of the accepted literal times `10 ^ 18` — the scaling is
exact integer arithmetic, with no rounding left to do. -/
theorem parseUnits18_exact (s : String) (v : ℤ) (h : parseUnits18 s = some v) :
    (v : ℚ) = fixedRatValue s * 10 ^ 18 := by
  unfold parseUnits18 at h
  unfold fixedRatValue
  cases hsf : splitFixed s.data with
  | none => rw [hsf] at h; cases h
  | some p =>
    obtain ⟨neg, whole, frac⟩ := p
    rw [hsf] at h
    simp only at h
    split at h
    · cases h
    · rename_i hlen
      split at h
      · cases h
      · rename_i hfr
        have hk : frac.length ≤ 18 := by omega
        have core : ((digitsVal (whole ++ frac) * 10 ^ (18 - frac.length) : ℕ) : ℚ) =
            ((digitsVal whole : ℚ) + (digitsVal frac : ℚ) / 10 ^ frac.length) * 10 ^ 18 := by
          have h18 : (10 : ℚ) ^ 18 = 10 ^ frac.length * 10 ^ (18 - frac.length) := by
            rw [← pow_add]
            congr 1
            omega
          push_cast [digitsVal_append]
          rw [h18]
          field_simp
          ring
        set mag : ℕ := digitsVal (whole ++ frac) * 10 ^ (18 - frac.length) with hmag
        set v0 : ℤ := if neg then -(mag : ℤ) else (mag : ℤ) with hv0
        split at h
        · cases h
        · injection h with h'
          subst h'
          cases neg with
          | false =>
            simp only [hv0, Bool.false_eq_true, if_false]
            exact_mod_cast core
          | true =>
            simp only [hv0, if_true]
            push_cast
            rw [core]
            ring

/-- C3: every amount accepted by a successful token transfer is scaled by
multiplying its exact decimal value by `10 ^ 18` and truncating — the
result is exact integer arithmetic (the truncation removes nothing) — and
the amount "10.5" encodes to the integer 10500000000000000000. -/
theorem c3_amount_scaling (req : TransferRequest) (ca t dH v : String)
    (h : tokenTransferPost req ca = TransferResponse.ok t dH v) :
    (∃ a val, req.amount = some a ∧ parseUnits18 (jsTrim a) = some val ∧
      (val : ℚ) = fixedRatValue (jsTrim a) * 10 ^ 18 ∧
      val = ⌊fixedRatValue (jsTrim a) * 10 ^ 18⌋) ∧
    parseUnits18 "10.5" = some 10500000000000000000 := by
  obtain ⟨f, ta, a, val, hreq, hpu, _, _, _⟩ := tokenTransferPost_ok_inv h
  subst hreq
  refine ⟨⟨a, val, rfl, hpu, parseUnits18_exact _ _ hpu, ?_⟩, by decide⟩
  rw [← parseUnits18_exact _ _ hpu]
  exact (Int.floor_intCast val).symm

/-- Witness for C3: the concrete 10.5-token transfer succeeds and its
scaled value is exactly 10500000000000000000. -/
theorem c3_amount_scaling_witness :
    parseUnits18 "10.5" = some 10500000000000000000 :=
  (c3_amount_scaling ⟨some addrA, some addrB, some "10.5"⟩ contractLower contractLower
    witnessCallData "0x0" (by decide)).2

/-! ### Amount validation (C6) -/

/-- C6 counterexample: an amount whose raw string is empty (so its
trimmed form is empty) is answered by the missing-fields 400, not by the
invalid-amount error body the claim names. -/
theorem c6_counterexample :
    tokenTransferPost ⟨some addrA, some addrB, some ""⟩ contractLower =
      TransferResponse.missingFields ∧
    transferErrorField TransferResponse.missingFields ≠
      transferErrorField TransferResponse.invalidAmount :=
  ⟨by decide, by decide⟩

/-- C6 (amended): with well-formed sender, recipient and configured
contract, every amount whose trimmed form is empty, non-numeric, or of
nonpositive numeric value is answered with a 400 and produces no
transaction data; the body is the invalid-amount error except for the
raw empty string, which already fails the required-fields check. -/
theorem c6_amount_rejection (f t a ca : String)
    (hf : jsTruthy f = true) (ht : jsTruthy t = true)
    (haf : isAddress f = true) (hat : isAddress t = true) (hca : isAddress ca = true)
    (hbad : jsTrim a = "" ∨ jsStrToNum (jsTrim a) = JsNum.nan ∨
      jsStrToNum (jsTrim a) = JsNum.inf true ∨
      (∃ m e, jsStrToNum (jsTrim a) = JsNum.fin m e ∧ (m : ℚ) * 10 ^ e ≤ 0)) :
    (a ≠ "" → tokenTransferPost ⟨some f, some t, some a⟩ ca = TransferResponse.invalidAmount) ∧
    (a = "" → tokenTransferPost ⟨some f, some t, some a⟩ ca = TransferResponse.missingFields) ∧
    transferStatus (tokenTransferPost ⟨some f, some t, some a⟩ ca) = 400 ∧
    (∀ t' dH v, tokenTransferPost ⟨some f, some t, some a⟩ ca ≠ TransferResponse.ok t' dH v) := by
  by_cases hae : a = ""
  · subst hae
    have hrun : tokenTransferPost ⟨some f, some t, some ""⟩ ca =
        TransferResponse.missingFields := by
      simp [tokenTransferPost, jsTruthy]
    exact ⟨fun hc => absurd rfl hc, fun _ => hrun, by rw [hrun]; rfl, by simp [hrun]⟩
  · have hta : jsTruthy a = true := by simp [jsTruthy, hae]
    have hcheck : (!jsTruthy (jsTrim a) || jsNumBad (jsStrToNum (jsTrim a))) = true := by
      rcases hbad with h0 | h1 | h2 | ⟨m, e, hme, hle⟩
      · simp [h0, jsTruthy]
      · simp [h1, jsNumBad]
      · simp [h2, jsNumBad]
      · have hp : (0 : ℚ) < 10 ^ e := zpow_pos (by norm_num) e
        have hm : (m : ℚ) ≤ 0 := by
          by_contra hmp
          push_neg at hmp
          nlinarith
        have hm' : m ≤ 0 := by exact_mod_cast hm
        simp [hme, jsNumBad, hm']
    have hrun : tokenTransferPost ⟨some f, some t, some a⟩ ca =
        TransferResponse.invalidAmount := by
      simp [tokenTransferPost, hf, ht, hta, haf, hat, hca, hcheck]
    exact ⟨fun _ => hrun, fun hc => absurd hc hae, by rw [hrun]; rfl, by simp [hrun]⟩

/-- Witness for C6: a whitespace amount (trimmed form empty) with
well-formed addresses is concretely answered by the invalid-amount
400. -/
theorem c6_amount_rejection_witness :
    tokenTransferPost ⟨some addrA, some addrB, some " "⟩ contractLower =
      TransferResponse.invalidAmount :=
  (c6_amount_rejection addrA addrB " " contractLower (by decide) (by decide) (by decide)
    (by decide) (by decide) (Or.inl (by decide))).1 (by decide)

/-! ### Characterisation of the address validator (C4)

The claim reads `isAddress` as accepting all and only `0x`-prefixed
40-hex-digit strings case-insensitively.  The ethers validator differs on
both sides: the prefix is optional, mixed-case inputs must match their
EIP-55 checksum, and checksummed ICAP strings are accepted too.  The
lemmas below translate the source's regex tests into structural
predicates and characterise `isAddress` exactly. -/

/-- The `0x` prefix test in structural form. -/
theorem listIsPrefix_0x_iff (l : List Char) :
    listIsPrefix ['0', 'x'] l = true ↔ ∃ rest, l = '0' :: 'x' :: rest := by
  cases l with
  | nil => simp [listIsPrefix]
  | cons c r =>
    cases r with
    | nil => simp [listIsPrefix]
    | cons c2 r2 =>
      simp only [listIsPrefix, Bool.and_eq_true, beq_iff_eq]
      constructor
      · rintro ⟨rfl, rfl, -⟩
        exact ⟨r2, rfl⟩
      · rintro ⟨rest, heq⟩
        injection heq with h1 heq
        injection heq with h2 _
        exact ⟨h1.symm, h2.symm, trivial⟩

/-- The hex-address regex in structural form: an optional prefix and a
body of exactly 40 hex digits. -/
theorem matchHex40_iff (l : List Char) :
    matchHex40 l = true ↔
      ∃ core, (l = '0' :: 'x' :: core ∨ l = core) ∧ core.length = 40 ∧
        ∀ c ∈ core, isHexDigit c = true := by
  unfold matchHex40
  simp only [Bool.or_eq_true, Bool.and_eq_true, decide_eq_true_eq, List.all_eq_true]
  constructor
  · rintro (⟨⟨h42, hpre⟩, hhex⟩ | ⟨h40, hhex⟩)
    · obtain ⟨rest, hrest⟩ := (listIsPrefix_0x_iff l).mp hpre
      subst hrest
      exact ⟨rest, Or.inl rfl, by simpa using h42, by simpa using hhex⟩
    · exact ⟨l, Or.inr rfl, h40, hhex⟩
  · rintro ⟨core, hform | hform, hlen, hhex⟩
    · subst hform
      exact Or.inl ⟨⟨by simp [hlen], (listIsPrefix_0x_iff _).mpr ⟨core, rfl⟩⟩, by simpa using hhex⟩
    · subst hform
      exact Or.inr ⟨hlen, hhex⟩

/-- No character is both an upper- and a lower-case hex letter. -/
theorem upper_lower_disjoint {c : Char} (h1 : isUpperHexLetter c = true)
    (h2 : isLowerHexLetter c = true) : False := by
  simp only [isUpperHexLetter, isLowerHexLetter, Bool.and_eq_true, decide_eq_true_eq] at h1 h2
  exact absurd (le_trans h2.1 h1.2) (by decide)

/-- The ordered before-after search of the mixed-case regex equals the
plain conjunction of the two letter searches (the letter classes are
disjoint, so when both letters occur one strictly precedes the other). -/
theorem scanMixed_eq_any (l : List Char) :
    scanMixed l = (l.any isUpperHexLetter && l.any isLowerHexLetter) := by
  induction l with
  | nil => rfl
  | cons c r ih =>
    by_cases hu : isUpperHexLetter c = true
    · have hlo : isLowerHexLetter c = false := by
        cases hv : isLowerHexLetter c
        · rfl
        · exact (upper_lower_disjoint hu hv).elim
      simp only [scanMixed, List.any_cons, ih, hu, hlo]
      cases r.any isUpperHexLetter <;> cases r.any isLowerHexLetter <;> simp
    · have hu' : isUpperHexLetter c = false := Bool.eq_false_iff.mpr hu
      simp only [scanMixed, List.any_cons, ih, hu']
      cases isLowerHexLetter c <;> cases r.any isUpperHexLetter <;>
        cases r.any isLowerHexLetter <;> simp

/-- The mixed-case regex in structural form: it fires exactly when the
string contains an upper-case hex letter and a lower-case one. -/
theorem scanMixed_iff (l : List Char) :
    scanMixed l = true ↔
      (∃ c ∈ l, isUpperHexLetter c = true) ∧ (∃ c ∈ l, isLowerHexLetter c = true) := by
  rw [scanMixed_eq_any]
  simp [List.any_eq_true]

/-- Letter searches ignore the `0x` prefix characters. -/
theorem exists_letter_cons_iff (p : Char → Bool) (hp0 : p '0' = false) (hpx : p 'x' = false)
    (core : List Char) :
    (∃ c ∈ '0' :: 'x' :: core, p c = true) ↔ (∃ c ∈ core, p c = true) := by
  simp only [List.mem_cons]
  constructor
  · rintro ⟨c, (rfl | rfl | hc), hpc⟩
    · rw [hp0] at hpc; cases hpc
    · rw [hpx] at hpc; cases hpc
    · exact ⟨c, hc, hpc⟩
  · rintro ⟨c, hc, hpc⟩
    exact ⟨c, Or.inr (Or.inr hc), hpc⟩

/-- A 40-hex-digit body cannot itself start with `0x` (the letter `x` is
not a hex digit). -/
theorem not_prefix_0x_of_hex {core : List Char}
    (hhex : ∀ c ∈ core, isHexDigit c = true) :
    listIsPrefix ['0', 'x'] core = false := by
  cases hv : listIsPrefix ['0', 'x'] core
  · rfl
  · obtain ⟨rest, hrest⟩ := (listIsPrefix_0x_iff core).mp hv
    subst hrest
    exact absurd (hhex 'x' (by simp)) (by decide)

/-- The ICAP regex in structural form. -/
theorem matchIcap_iff (l : List Char) :
    matchIcap l = true ↔
      ∃ d1 d2 rest, l = 'X' :: 'E' :: d1 :: d2 :: rest ∧ d1.isDigit = true ∧
        d2.isDigit = true ∧ (rest.length = 30 ∨ rest.length = 31) ∧
        ∀ c ∈ rest, isIcapAlnum c = true := by
  cases l with
  | nil => simp [matchIcap]
  | cons c1 r1 =>
    cases r1 with
    | nil => simp [matchIcap]
    | cons c2 r2 =>
      cases r2 with
      | nil => simp [matchIcap]
      | cons d1 r3 =>
        cases r3 with
        | nil => simp [matchIcap]
        | cons d2 rest =>
          simp only [matchIcap, Bool.and_eq_true, Bool.or_eq_true, beq_iff_eq,
            decide_eq_true_eq, List.all_eq_true]
          constructor
          · rintro ⟨⟨⟨⟨⟨rfl, rfl⟩, h1⟩, h2⟩, h3⟩, h4⟩
            exact ⟨d1, d2, rest, rfl, h1, h2, h3, fun c hc => h4 c hc⟩
          · rintro ⟨d1', d2', rest', heq, h1, h2, h3, h4⟩
            injection heq with e1 heq
            injection heq with e2 heq
            injection heq with e3 heq
            injection heq with e4 e5
            subst e1; subst e2; subst e3; subst e4; subst e5
            exact ⟨⟨⟨⟨⟨rfl, rfl⟩, h1⟩, h2⟩, h3⟩, fun c hc => h4 c hc⟩

/-- The checksummed form depends only on the lower-cased address body. -/
theorem getChecksumAddress_congr {l1 l2 : List Char}
    (h : (l1.drop 2).map lowerHexChar = (l2.drop 2).map lowerHexChar) :
    getChecksumAddress l1 = getChecksumAddress l2 := by
  unfold getChecksumAddress
  rw [h]

/-- On a string whose data is an optionally prefixed 40-hex-digit body,
`isAddress` accepts exactly when the (prefixed) form is not mixed-case or
is its own EIP-55 checksummed form. -/
theorem isAddress_hex_iff {s : String} {core : List Char}
    (hform : s.data = '0' :: 'x' :: core ∨ s.data = core)
    (hlen : core.length = 40) (hdig : ∀ c ∈ core, isHexDigit c = true) :
    isAddress s = true ↔
      (scanMixed ('0' :: 'x' :: core) = false ∨
        getChecksumAddress ('0' :: 'x' :: core) = '0' :: 'x' :: core) := by
  have hhex : matchHex40 s.data = true := (matchHex40_iff _).mpr ⟨core, hform, hlen, hdig⟩
  simp only [isAddress, getAddressResult]
  rw [if_pos hhex]
  have hn : (if listIsPrefix ['0', 'x'] s.data = true then s.data else '0' :: 'x' :: s.data) =
      '0' :: 'x' :: core := by
    rcases hform with hf | hf
    · rw [hf, if_pos (by simp [listIsPrefix])]
    · rw [hf, if_neg (by simp [not_prefix_0x_of_hex hdig])]
  rw [hn]
  cases hmix : scanMixed ('0' :: 'x' :: core) with
  | false =>
    rw [if_neg (by simp)]
    simp
  | true =>
    by_cases hG : getChecksumAddress ('0' :: 'x' :: core) = '0' :: 'x' :: core
    · rw [if_neg (by simp [hG])]
      simp [hG]
    · rw [if_pos (by simp [hG])]
      simp [hG]

/-- On a string whose data matches the ICAP pattern, `isAddress` accepts
exactly when the embedded IBAN checksum digits are correct. -/
theorem isAddress_icap_iff {s : String} (hicap : matchIcap s.data = true)
    (hnothex : matchHex40 s.data = false) :
    isAddress s = true ↔ (s.data.take 4).drop 2 = ibanChecksumChars s.data := by
  simp only [isAddress, getAddressResult]
  rw [if_neg (by simp [hnothex]), if_pos hicap]
  by_cases hck : (s.data.take 4).drop 2 = ibanChecksumChars s.data
  · rw [if_pos hck]
    simp [hck]
  · rw [if_neg hck]
    simp [hck]

/-- A string matching neither regex is rejected. -/
theorem isAddress_none {s : String} (hnothex : matchHex40 s.data = false)
    (hnoticap : matchIcap s.data = false) : isAddress s = false := by
  simp only [isAddress, getAddressResult]
  rw [if_neg (by simp [hnothex]), if_neg (by simp [hnoticap])]
  rfl

/-- The 40-hex-digit decomposition of a string is unique. -/
theorem hexCore_unique {l core core' : List Char}
    (hform : l = '0' :: 'x' :: core ∨ l = core)
    (hdig : ∀ c ∈ core, isHexDigit c = true)
    (hform' : l = '0' :: 'x' :: core' ∨ l = core')
    (hdig' : ∀ c ∈ core', isHexDigit c = true) :
    core = core' := by
  rcases hform with hf | hf
  · rcases hform' with hf' | hf'
    · rw [hf] at hf'
      simpa using hf'
    · rw [hf] at hf'
      have hx : isHexDigit 'x' = true := hdig' 'x' (by rw [← hf']; simp)
      exact absurd hx (by decide)
  · rcases hform' with hf' | hf'
    · rw [hf] at hf'
      have hx : isHexDigit 'x' = true := hdig 'x' (by rw [hf']; simp)
      exact absurd hx (by decide)
    · rw [hf] at hf'
      exact hf'

/-- Specification-side acceptance for the hex form: an optional `0x`
prefix, exactly 40 hex digits, and either no mix of upper- and lower-case
hex letters or agreement with the EIP-55 checksummed form. -/
def specHexAccept (s : String) : Prop :=
  ∃ core : List Char,
    (s.data = '0' :: 'x' :: core ∨ s.data = core) ∧
    core.length = 40 ∧ (∀ c ∈ core, isHexDigit c = true) ∧
    (¬ ((∃ c ∈ core, isUpperHexLetter c = true) ∧ (∃ c ∈ core, isLowerHexLetter c = true)) ∨
      getChecksumAddress ('0' :: 'x' :: core) = '0' :: 'x' :: core)

/-- Specification-side acceptance for the ICAP form: the `XE` tag, two
checksum digits that match the IBAN mod-97 checksum, and 30 or 31
base-36 characters. -/
def specIcapAccept (s : String) : Prop :=
  ∃ d1 d2 rest, s.data = 'X' :: 'E' :: d1 :: d2 :: rest ∧ d1.isDigit = true ∧
    d2.isDigit = true ∧ (rest.length = 30 ∨ rest.length = 31) ∧
    (∀ c ∈ rest, isIcapAlnum c = true) ∧ [d1, d2] = ibanChecksumChars s.data

/-- C4 counterexample: the validator accepts a bare 40-hex-digit string
with no `0x` prefix, and of two distinct mixed-case variants of the same
prefixed address it rejects at least one — both contradicting "all and
only `0x`-prefixed 40-hex strings, case-insensitively". -/
theorem c4_counterexample :
    isAddress "e3a2798ba79a1fe34b6ad050c7fc791e4346a6c9" = true ∧
    (isAddress "0xE3a2798ba79a1fe34b6ad050c7fc791e4346a6c9" = false ∨
      isAddress "0xe3A2798ba79a1fe34b6ad050c7fc791e4346a6c9" = false) := by
  refine ⟨by decide, ?_⟩
  by_contra hc
  push_neg at hc
  obtain ⟨h1, h2⟩ := hc
  rw [Bool.ne_false_iff] at h1 h2
  have k1 := (@isAddress_hex_iff "0xE3a2798ba79a1fe34b6ad050c7fc791e4346a6c9"
    ("0xE3a2798ba79a1fe34b6ad050c7fc791e4346a6c9".data.drop 2)
    (Or.inl (by decide)) (by decide) (by decide)).mp h1
  have k2 := (@isAddress_hex_iff "0xe3A2798ba79a1fe34b6ad050c7fc791e4346a6c9"
    ("0xe3A2798ba79a1fe34b6ad050c7fc791e4346a6c9".data.drop 2)
    (Or.inl (by decide)) (by decide) (by decide)).mp h2
  rcases k1 with k1 | k1
  · exact absurd k1 (by decide)
  rcases k2 with k2 | k2
  · exact absurd k2 (by decide)
  have hcongr := @getChecksumAddress_congr
    ('0' :: 'x' :: "0xE3a2798ba79a1fe34b6ad050c7fc791e4346a6c9".data.drop 2)
    ('0' :: 'x' :: "0xe3A2798ba79a1fe34b6ad050c7fc791e4346a6c9".data.drop 2)
    (by decide)
  have : ('0' :: 'x' :: "0xE3a2798ba79a1fe34b6ad050c7fc791e4346a6c9".data.drop 2) =
      ('0' :: 'x' :: "0xe3A2798ba79a1fe34b6ad050c7fc791e4346a6c9".data.drop 2) := by
    rw [← k1, hcongr, k2]
  exact absurd this (by decide)

/-- C4 (amended): the validator accepts exactly the optionally
`0x`-prefixed 40-hex-digit strings that are not mixed-case or equal their
EIP-55 checksummed form, together with IBAN-checksummed ICAP strings; and
each endpoint answers its 400 validation response for a rejected address
whatever the node would have said. -/
theorem c4_address_validation :
    (∀ s, isAddress s = true ↔ specHexAccept s ∨ specIcapAccept s) ∧
    (∀ f t a ca, jsTruthy f = true → jsTruthy t = true → jsTruthy a = true →
      (isAddress f = false ∨ isAddress t = false) →
      tokenTransferPost ⟨some f, some t, some a⟩ ca = TransferResponse.invalidAddressFormat) ∧
    (∀ f t d network nonce fee est, jsTruthy f = true → jsTruthy t = true → jsTruthy d = true →
      (isAddress f = false ∨ isAddress t = false) →
      txParamsPost ⟨some f, some t, some d⟩ network nonce fee est =
        TxParamsResponse.invalidAddressFormat) ∧
    (∀ a ca node, isAddress a = false →
      balancesGet (some a) ca node = BalancesResponse.invalidWallet) := by
  refine ⟨?_, ?_, ?_, ?_⟩
  · intro s
    by_cases hhex : matchHex40 s.data = true
    · obtain ⟨core, hform, hlen, hdig⟩ := (matchHex40_iff _).mp hhex
      have mixed_iff : scanMixed ('0' :: 'x' :: core) = true ↔
          (∃ c ∈ core, isUpperHexLetter c = true) ∧ (∃ c ∈ core, isLowerHexLetter c = true) := by
        rw [scanMixed_iff,
          exists_letter_cons_iff isUpperHexLetter (by decide) (by decide),
          exists_letter_cons_iff isLowerHexLetter (by decide) (by decide)]
      rw [isAddress_hex_iff hform hlen hdig]
      constructor
      · rintro (hm | hG)
        · refine Or.inl ⟨core, hform, hlen, hdig, Or.inl ?_⟩
          intro hboth
          rw [← mixed_iff] at hboth
          rw [hm] at hboth
          cases hboth
        · exact Or.inl ⟨core, hform, hlen, hdig, Or.inr hG⟩
      · rintro (⟨core', hform', hlen', hdig', hcond⟩ | hic)
        · have hcc : core' = core := hexCore_unique hform' hdig' hform hdig
          subst hcc
          rcases hcond with hnb | hG
          · left
            cases hv : scanMixed ('0' :: 'x' :: core')
            · rfl
            · exact absurd (mixed_iff.mp hv) hnb
          · right
            exact hG
        · exfalso
          obtain ⟨d1, d2, rest, hsd, -⟩ := hic
          rcases hform with hf | hf
          · rw [hf] at hsd
            injection hsd with hx _
            exact absurd hx (by decide)
          · rw [hf] at hsd
            have hx : isHexDigit 'X' = true := hdig 'X' (by rw [hsd]; simp)
            exact absurd hx (by decide)
    · have hhex' : matchHex40 s.data = false := by
        cases hv : matchHex40 s.data
        · rfl
        · exact absurd hv hhex
      by_cases hicap : matchIcap s.data = true
      · obtain ⟨d1, d2, rest, hsd, hd1, hd2, hrl, hra⟩ := (matchIcap_iff _).mp hicap
        rw [isAddress_icap_iff hicap hhex']
        constructor
        · intro hck
          refine Or.inr ⟨d1, d2, rest, hsd, hd1, hd2, hrl, hra, ?_⟩
          have htd : (s.data.take 4).drop 2 = [d1, d2] := by rw [hsd]; rfl
          rw [htd] at hck
          exact hck
        · rintro (⟨core, hform, hlen, hdig, -⟩ | ⟨d1', d2', rest', hsd', -, -, -, -, hck'⟩)
          · exact absurd ((matchHex40_iff _).mpr ⟨core, hform, hlen, hdig⟩) hhex
          · rw [hsd] at hsd'
            injection hsd' with _ h
            injection h with _ h
            injection h with e3 h
            injection h with e4 _
            subst e3
            subst e4
            have htd : (s.data.take 4).drop 2 = [d1, d2] := by rw [hsd]; rfl
            rw [htd]
            exact hck'
      · have hicap' : matchIcap s.data = false := by
          cases hv : matchIcap s.data
          · rfl
          · exact absurd hv hicap
        rw [show isAddress s = false from isAddress_none hhex' hicap']
        constructor
        · intro h
          cases h
        · rintro (⟨core, hform, hlen, hdig, -⟩ | ⟨d1, d2, rest, hsd, hd1, hd2, hrl, hra, -⟩)
          · exact absurd ((matchHex40_iff _).mpr ⟨core, hform, hlen, hdig⟩) hhex
          · exact absurd ((matchIcap_iff _).mpr ⟨d1, d2, rest, hsd, hd1, hd2, hrl, hra⟩) hicap
  · intro f t a ca hf ht ha hinv
    have hcond : (isAddress f && isAddress t) = false := by
      rcases hinv with h | h <;> simp [h]
    simp [tokenTransferPost, hf, ht, ha, hcond]
  · intro f t d network nonce fee est hf ht hd hinv
    have hcond : (isAddress f && isAddress t) = false := by
      rcases hinv with h | h <;> simp [h]
    simp [txParamsPost, hf, ht, hd, hcond]
  · intro a ca node h
    simp [balancesGet, h]

/-- Witness for C4: the all-lowercase deployed contract address is
accepted through the hex arm of the characterisation, and a concrete
malformed address is turned away by each endpoint without consulting the
node. -/
theorem c4_address_validation_witness :
    isAddress contractLower = true ∧
    tokenTransferPost ⟨some "0x12", some addrB, some "10.5"⟩ contractLower =
      TransferResponse.invalidAddressFormat ∧
    balancesGet (some "0x12") contractLower (Except.error "never sent") =
      BalancesResponse.invalidWallet :=
  ⟨(c4_address_validation.1 contractLower).mpr
    (Or.inl ⟨contractLower.data.drop 2, Or.inl (by decide), by decide, by decide,
      Or.inl (by decide)⟩),
   c4_address_validation.2.1 "0x12" addrB "10.5" contractLower (by decide) (by decide)
     (by decide) (Or.inl (by decide)),
   c4_address_validation.2.2.2 "0x12" contractLower (Except.error "never sent") (by decide)⟩

end LXUSD
